import Mathlib

/-!
Verification of the migration-forecast core: transition-matrix estimation,
population propagation, year expansion, ensemble sampling (worker), and
validation metrics, shallowly embedded over exact rationals.  Floating-point
primitives of the host platform (`Math.log`, `Math.exp`, `Math.sqrt`) are
modelled as parameters `logF expF sqrtF : ℚ → ℚ`; machine integers of the
seeded RNG are modelled as `Nat` with explicit `% 2^32` and an explicit
to-signed-32-bit conversion.
-/

namespace Migration

/-! ### Generic list/sum helpers -/

theorem sum_range_map (f : ℕ → ℚ) (n : ℕ) :
    ((List.range n).map f).sum = ∑ j ∈ Finset.range n, f j := by
  induction n with
  | zero => simp
  | succ n ih =>
      rw [List.range_succ]
      simp [ih, Finset.sum_range_succ]

theorem getD_range_map {α : Type} (f : ℕ → α) (d : α) (n i : ℕ) (h : i < n) :
    (((List.range n).map f).getD i d) = f i := by
  rw [List.getD_eq_getElem?_getD]
  simp [List.getElem?_range, h]

/-! ### Data model: per-location flow record (`{inflow, outflow, stock}`) -/

structure Flow where
  inflow : ℚ
  outflow : ℚ
  stock : ℚ

/-! ### TransitionEstimator (`estimateTransitionMatrix`)

Per origin `i`: if the origin's flow record is missing or its stock is zero
(the JS falsiness test `!originFlow?.stock`), the row is the identity row.
Otherwise the stay probability is `max(0.5, 1 - outflow / max(1, stock))`,
destination weights combine log-attractiveness, an exponential distance decay
and a connectivity bonus, the remaining mass is distributed proportionally to
the weights when their sum is positive, and finally the whole row is divided
by its sum when that sum is positive. -/

def stayProbOf (f : Flow) : ℚ :=
  max (1 / 2) (1 - f.outflow / max 1 f.stock)

def weightFor (logF expF : ℚ → ℚ) (flows : String → Option Flow)
    (distances : String → String → Option ℚ) (conn : String → String → ℚ)
    (distCoeff connCoeff : ℚ) (origin dest : String) : ℚ :=
  let attractiveness := logF (((flows dest).map Flow.inflow).getD 0 + 10)
  let distance := (distances origin dest).getD 3000
  let connectivityBonus := 1 + connCoeff * conn origin dest
  let distanceEffect := expF (-distCoeff * distance / 1000)
  max (1 / 10000) attractiveness * distanceEffect * connectivityBonus

/-- The all-zero row with a single 1.0 on the diagonal (`matrix[i][i] = 1.0`
with every other entry left at its `Array(n).fill(0)` initial value). -/
def identityRow (n i : ℕ) : List ℚ :=
  (List.range n).map (fun j => if i = j then 1 else 0)

/-- `weights[j]` of origin row `i`: 0 on the diagonal, `weightFor` otherwise. -/
def rowWeight (logF expF : ℚ → ℚ) (flows : String → Option Flow)
    (countries : List String) (distances : String → String → Option ℚ)
    (conn : String → String → ℚ) (distCoeff connCoeff : ℚ) (i j : ℕ) : ℚ :=
  if i = j then 0
  else weightFor logF expF flows distances conn distCoeff connCoeff
    (countries.getD i "") (countries.getD j "")

/-- The positive-stock branch of a row of `estimateTransitionMatrix`:
diagonal `p`, off-diagonals `(1 - p)·w_j/Σw` when `Σw > 0`, then the final
defensive renormalization dividing the row by its sum when that is positive. -/
def estRowCore (p : ℚ) (w : ℕ → ℚ) (n i : ℕ) : List ℚ :=
  let weightSum := ((List.range n).map w).sum
  let row := (List.range n).map (fun j =>
    if i = j then p
    else if 0 < weightSum then (1 - p) * (w j / weightSum) else 0)
  let rowSum := row.sum
  if 0 < rowSum then row.map (fun v => v / rowSum) else row

def estRow (logF expF : ℚ → ℚ) (flows : String → Option Flow)
    (countries : List String) (distances : String → String → Option ℚ)
    (conn : String → String → ℚ) (distCoeff connCoeff : ℚ) (i : ℕ) : List ℚ :=
  match flows (countries.getD i "") with
  | none => identityRow countries.length i
  | some f =>
      if f.stock = 0 then identityRow countries.length i
      else
        estRowCore (stayProbOf f)
          (rowWeight logF expF flows countries distances conn distCoeff connCoeff i)
          countries.length i

def estimateTransitionMatrix (logF expF : ℚ → ℚ) (flows : String → Option Flow)
    (countries : List String) (distances : String → String → Option ℚ)
    (conn : String → String → ℚ) (distCoeff connCoeff : ℚ) : List (List ℚ) :=
  (List.range countries.length).map
    (estRow logF expF flows countries distances conn distCoeff connCoeff)

/-! ### Propagator (`propagatePopulation`)

`newPop[dest_j] = Σ_i currentPop[origin_i] · T[i][j]`, with missing population
and matrix entries defaulting to 0 (`?? 0`).  The resulting object holds one
value per position of the country list; we return them in list order. -/

def propagatePopulation (currentPop : String → ℚ) (transMatrix : List (List ℚ))
    (countries : List String) : List ℚ :=
  (List.range countries.length).map (fun j =>
    ((List.range countries.length).map (fun i =>
      currentPop (countries.getD i "") * ((transMatrix.getD i []).getD j 0))).sum)

/-! ### MatrixAverager (`averageTransitionMatrixFrom`)

`null` for an empty list; otherwise the element-wise accumulation
`avg[i][j] += (tm.matrix[i]?.[j] ?? 0) / matrices.length`. -/

def averageTransitionMatrixFrom (matrices : List (ℤ × List (List ℚ)))
    (countries : List String) : Option (List (List ℚ)) :=
  if matrices = [] then none
  else
    let n := countries.length
    some ((List.range n).map (fun i => (List.range n).map (fun j =>
      (matrices.map (fun tm =>
        ((tm.2.getD i []).getD j 0) / (matrices.length : ℚ))).sum)))

/-! ### YearExpander (`expandSelectedYearsWithAdjacents`, `computePairsFromExpanded`)

A JS `Set` is modelled as a duplicate-free list built by insertion-order
`add`; the final `Array.from(expanded).sort((a,b) => a-b)` is the ascending
sort of that list. -/

def addUnique (l : List ℤ) (y : ℤ) : List ℤ :=
  if y ∈ l then l else l ++ [y]

def expandSelectedYearsWithAdjacents (selectedYears availableYears : List ℤ) :
    List ℤ :=
  let expanded0 := selectedYears.foldl addUnique []
  let expanded := selectedYears.foldl (fun acc y =>
    let acc1 := if y - 1 ∈ availableYears then addUnique acc (y - 1) else acc
    if y + 1 ∈ availableYears then addUnique acc1 (y + 1) else acc1) expanded0
  expanded.insertionSort (fun a b => a ≤ b)

def computePairsFromExpanded : List ℤ → List (ℤ × ℤ)
  | y1 :: y2 :: rest =>
      (if y2 - y1 = 1 then [(y1, y2)] else []) ++
        computePairsFromExpanded (y2 :: rest)
  | _ => []

/-! ### MetricsEvaluator (`calculateMetrics`) -/

structure PredPoint where
  year : ℤ
  phase : String
  predicted : Option (String → ℚ)
  actualData : Option (String → ℚ)
  lower : Option (String → ℚ)
  upper : Option (String → ℚ)

structure Metrics where
  rmse : ℚ
  mae : ℚ
  coverage : ℚ
  totalPoints : ℕ
deriving DecidableEq

structure MetricsAcc where
  tse : ℚ
  tae : ℚ
  tp : ℕ
  cp : ℕ

/-- One country of one prediction point: count it only when `actual > 0`. -/
def metricsStep (acc : MetricsAcc) (actual predicted lower upper : ℚ) :
    MetricsAcc :=
  if 0 < actual then
    { tse := acc.tse + (predicted - actual) * (predicted - actual)
      tae := acc.tae + |predicted - actual|
      tp := acc.tp + 1
      cp := acc.cp + if lower ≤ actual ∧ actual ≤ upper then 1 else 0 }
  else acc

/-- One prediction point: skipped entirely unless it has both an `actualData`
and a `predicted` object. -/
def metricsAccum (selectedCountriesList : List String) (acc : MetricsAcc)
    (pred : PredPoint) : MetricsAcc :=
  match pred.actualData, pred.predicted with
  | some actualData, some predicted =>
      selectedCountriesList.foldl (fun a2 country =>
        metricsStep a2 (actualData country) (predicted country)
          ((pred.lower.map (fun f => f country)).getD 0)
          ((pred.upper.map (fun f => f country)).getD 0)) acc
  | _, _ => acc

def calculateMetrics (sqrtF : ℚ → ℚ) (predictionsList : List PredPoint)
    (selectedCountriesList : List String) : Metrics :=
  let acc := predictionsList.foldl (metricsAccum selectedCountriesList)
    ⟨0, 0, 0, 0⟩
  if acc.tp = 0 then ⟨0, 0, 0, 0⟩
  else
    ⟨sqrtF (acc.tse / (acc.tp : ℚ)), acc.tae / (acc.tp : ℚ),
      (acc.cp : ℚ) / (acc.tp : ℚ) * 100, acc.tp⟩

/-! #### Spec-side companions for the metrics evaluator

Following the spec's words: the list of counted (actual, predicted, lower,
upper) points — those with both an `actualData` and a `predicted` object and
`actual > 0` — and the error sums over them.  These are compared against
`calculateMetrics` (translated from the source) in the C9 theorem. -/

def ptsOf (actualData predicted : String → ℚ)
    (lower upper : Option (String → ℚ)) (cs : List String) :
    List (ℚ × ℚ × ℚ × ℚ) :=
  (cs.filter (fun c => decide (0 < actualData c))).map (fun c =>
    (actualData c, predicted c, (lower.map (fun f => f c)).getD 0,
      (upper.map (fun f => f c)).getD 0))

def specCountedPoints (preds : List PredPoint) (cs : List String) :
    List (ℚ × ℚ × ℚ × ℚ) :=
  preds.foldr (fun pred acc =>
    (match pred.actualData, pred.predicted with
     | some a, some p => ptsOf a p pred.lower pred.upper cs
     | _, _ => []) ++ acc) []

def ptsSSE (pts : List (ℚ × ℚ × ℚ × ℚ)) : ℚ :=
  (pts.map (fun q => (q.2.1 - q.1) * (q.2.1 - q.1))).sum

def ptsSAE (pts : List (ℚ × ℚ × ℚ × ℚ)) : ℚ :=
  (pts.map (fun q => |q.2.1 - q.1|)).sum

def ptsCov (pts : List (ℚ × ℚ × ℚ × ℚ)) : ℕ :=
  (pts.filter (fun q => decide (q.2.2.1 ≤ q.1 ∧ q.1 ≤ q.2.2.2))).length

/-! ### EnsembleSampler worker (`self.onmessage` of the ensemble worker)

The seeded path only: `state` is a 32-bit unsigned accumulator; each draw
first advances the LCG (`>>> 0`, i.e. mod 2^32) and then returns
`(state & 0xffffffff) / 4294967295`.  In JS, `state & 0xffffffff` coerces the
unsigned state to a *signed* 32-bit integer (`toInt32`), so the numerator is
negative whenever the state is ≥ 2^31.  The unseeded `Math.random` path is
external nondeterminism and is not modelled. -/

def lcgNext (state : ℕ) : ℕ :=
  (1664525 * state + 1013904223) % 4294967296

/-- JS `ToInt32` of a value already reduced mod 2^32. -/
def toInt32 (s : ℕ) : ℤ :=
  if s < 2147483648 then (s : ℤ) else (s : ℤ) - 4294967296

/-- The value returned by one call of the seeded `rng` closure started at
`state`: advance the LCG, then normalize the signed reading of the new state
by 2^32 − 1. -/
def lcgDraw (state : ℕ) : ℚ :=
  (toInt32 (lcgNext state) : ℚ) / 4294967295

/-- `state = (state*31 + charCode) >>> 0` over the seed characters,
forced to 1 when it lands on 0. -/
def seedState (seed : List ℕ) : ℕ :=
  let h := seed.foldl (fun st c => (st * 31 + c) % 4294967296) 0
  if h = 0 then 1 else h

/-- An empty JS object; reads of absent keys are defaulted to 0 by every
caller (`?? 0` / `typeof` checks), so objects are modelled as total maps. -/
def emptyPop : String → ℚ := fun _ => 0

def objWrite (f : String → ℚ) (k : String) (v : ℚ) : String → ℚ :=
  fun c => if c = k then v else f c

/-- Dirichlet-like row perturbation; threads the RNG state and consumes one
draw per row entry. -/
def perturbRow (logF : ℚ → ℚ) (row : List ℚ) (st : ℕ) : List ℚ × ℕ :=
  if row = [] then ([], st)
  else
    let alphas := row.map (fun p => max (1 / 1000000) (p * 100))
    let gs := alphas.foldl (fun (acc : List ℚ × ℕ) a =>
      let st1 := lcgNext acc.2
      ((acc.1 ++ [-(logF (max ((toInt32 st1 : ℚ) / 4294967295)
        (1 / 1000000000000))) * a]), st1)) (([], st) : List ℚ × ℕ)
    let s := if gs.1.sum = 0 then 1 else gs.1.sum
    (gs.1.map (fun g => g / s), gs.2)

/-- The worker-local `propagate`: copies the population when the matrix has
the wrong number of rows, otherwise one Markov step. -/
def propagate (currentPop : String → ℚ) (transMatrix : List (List ℚ))
    (countries : List String) : String → ℚ :=
  let n := countries.length
  if transMatrix.length ≠ n then
    countries.foldl (fun acc c => objWrite acc c (currentPop c)) emptyPop
  else
    countries.enum.foldl (fun acc jd =>
      objWrite acc jd.2
        ((countries.enum.map (fun io =>
          currentPop io.2 * ((transMatrix.getD io.1 []).getD jd.1 0))).sum))
      emptyPop

/-- Per-country aggregation of one step's ensemble values: sort ascending,
`mean = Σ/len`, `lower`/`upper` the entries at `floor(len·0.025)` and
`floor(len·0.975)` (`?? 0` out of range), with `len = max(1, n)`. -/
def aggregateVals (vals : List ℚ) : ℚ × ℚ × ℚ :=
  let sorted := vals.insertionSort (fun a b => a ≤ b)
  let len : ℕ := max 1 vals.length
  (sorted.sum / (len : ℚ),
   sorted.getD (len * 25 / 1000) 0,
   sorted.getD (len * 975 / 1000) 0)

/-- One ensemble member's perturbed copy of the base matrix, with the
empty-row fallbacks (renormalized original row of the right length, else a
uniform row). -/
def perturbMatrix (logF : ℚ → ℚ) (baseMatrix : List (List ℚ))
    (nCountries : ℕ) (st : ℕ) : List (List ℚ) × ℕ :=
  baseMatrix.foldl (fun (acc : List (List ℚ) × ℕ) row =>
    let pr := perturbRow logF row acc.2
    let prow :=
      if pr.1 = [] then
        if row.length = nCountries then
          let sumRow := if row.sum = 0 then 1 else row.sum
          row.map (fun v => v / sumRow)
        else (List.range (max nCountries 1)).map
          (fun _ => 1 / (max nCountries 1 : ℚ))
      else pr.1
    (acc.1 ++ [prow], pr.2)) (([], st) : List (List ℚ) × ℕ)

/-- The inner `for (s = 0; s < Math.max(1, ensembleSize); s++)` loop:
collects the propagated vector of each member, threading the RNG state. -/
def ensembleLoop (logF : ℚ → ℚ) (baseMatrix : List (List ℚ))
    (countries : List String) (ensembleSize : ℕ) (currentPop : String → ℚ)
    (st : ℕ) : List (String → ℚ) × ℕ :=
  (List.range (max 1 ensembleSize)).foldl (fun acc _ =>
    let pm := perturbMatrix logF baseMatrix countries.length acc.2
    (acc.1 ++ [propagate currentPop pm.1 countries], pm.2))
    (([], st) : List (String → ℚ) × ℕ)

/-- One forecast step: ensemble loop plus the per-country mean/lower/upper
objects. -/
def workerStep (logF : ℚ → ℚ) (baseMatrix : List (List ℚ))
    (countries : List String) (ensembleSize : ℕ) (currentPop : String → ℚ)
    (st : ℕ) : (String → ℚ) × (String → ℚ) × (String → ℚ) × ℕ :=
  let ev := ensembleLoop logF baseMatrix countries ensembleSize currentPop st
  let agg := countries.foldl
    (fun (acc : (String → ℚ) × (String → ℚ) × (String → ℚ)) country =>
      let mlu := aggregateVals (ev.1.map (fun e => e country))
      (objWrite acc.1 country mlu.1, objWrite acc.2.1 country mlu.2.1,
        objWrite acc.2.2 country mlu.2.2))
    (emptyPop, emptyPop, emptyPop)
  (agg.1, agg.2.1, agg.2.2, ev.2)

structure WorkerOut where
  year : ℤ
  mean : String → ℚ
  lower : String → ℚ
  upper : String → ℚ

/-- The `for (step = 1; step <= Math.max(0, steps); step++)` loop; the mean
of step `s` becomes the propagation base of step `s+1`. -/
def runWorkerAux (logF : ℚ → ℚ) (baseMatrix : List (List ℚ))
    (countries : List String) (ensembleSize : ℕ) :
    ℕ → (String → ℚ) → ℕ → ℤ → List WorkerOut
  | 0, _, _, _ => []
  | k + 1, currentPop, st, year =>
      let s := workerStep logF baseMatrix countries ensembleSize currentPop st
      ⟨year + 1, s.1, s.2.1, s.2.2.1⟩ ::
        runWorkerAux logF baseMatrix countries ensembleSize k s.1 s.2.2.2
          (year + 1)

/-- The whole seeded worker run: step 0 is the initial population with a
zero-width interval, then `steps` chained ensemble steps. -/
def runWorker (logF : ℚ → ℚ) (finalAvgMatrix : List (List ℚ))
    (initPop : String → ℚ) (selectedCountries : List String)
    (steps ensembleSize : ℕ) (seed : List ℕ) (startYear : ℤ) :
    List WorkerOut :=
  ⟨startYear, initPop, initPop, initPop⟩ ::
    runWorkerAux logF finalAvgMatrix selectedCountries ensembleSize steps
      initPop (seedState seed) startYear

/-! ### Model-run orchestration (`generatePredictions`)

`δ` is the type of one year's raw data rows; parsing collaborators
(`getFlows`, `getPopulationStock`) and the ensemble sampler (worker with
synchronous fallback) are passed as function parameters, mirroring the
callbacks captured by `generatePredictions`.  `yearIndex` returns the data of
a year when present.  React state cells touched by the run are collected in
`AppState`; the thrown error (caught and alerted at the end of the function)
is returned as `Option String`. -/

structure RunEnv (δ : Type) where
  inputMode : String
  inputYear : Option ℤ
  inputYearsMulti : List ℤ
  targetYear : Option ℤ
  targetValidationError : String
  migrationData : List (ℤ × δ)
  years : List ℤ
  yearIndex : ℤ → Option δ
  selectedCountries : List String
  distanceEffect : ℚ
  connectivityEffect : ℚ
  ensembleSize : ℕ
  rngSeed : List ℕ

structure AppState where
  predictions : List PredPoint
  transitionMatrices : List (ℤ × List (List ℚ))
  averageTransitionMatrix : Option (List (List ℚ))
  validationMetrics : Option Metrics
  trainingPairs : List (ℤ × ℤ)
  expandedYears : List ℤ
  resultsReady : Bool

/-- `Math.max(...l)` over a non-empty list. -/
def listMax : List ℤ → ℤ
  | [] => 0
  | a :: t => t.foldl max a

/-- `buildTrainingTransitionMatricesAndPairs(mode, multipleYears,
canonicalTrainData)`; returns `(matrices, pairs, expandedYears)`.  Entries of
`migrationData`/`canonicalTrainData` always carry their data (they are
constructed that way at load time), so the JS `?.data` checks on them are
always true. -/
def buildTrainingTransitionMatricesAndPairs {δ : Type} (logF expF : ℚ → ℚ)
    (getFlowsF : δ → List String → (String → Option Flow))
    (distances : String → String → Option ℚ) (conn : String → String → ℚ)
    (env : RunEnv δ) (mode : String) (multipleYears : List ℤ)
    (canonicalTrainData : List (ℤ × δ)) :
    List (ℤ × List (List ℚ)) × List (ℤ × ℤ) × List ℤ :=
  if mode = "multiple" ∧ multipleYears ≠ [] then
    let expanded := expandSelectedYearsWithAdjacents multipleYears env.years
    let step := (List.range (expanded.length - 1)).foldl
      (fun (acc : List (ℤ × List (List ℚ)) × List (ℤ × ℤ)) i =>
        let y1 := expanded.getD i 0
        let y2 := expanded.getD (i + 1) 0
        if y2 - y1 = 1 then
          match env.yearIndex y1, env.yearIndex y2 with
          | some row1, some _ =>
              let flows := getFlowsF row1 env.selectedCountries
              let tm := estimateTransitionMatrix logF expF flows
                env.selectedCountries distances conn env.distanceEffect
                env.connectivityEffect
              (acc.1 ++ [(y2, tm)], acc.2 ++ [(y1, y2)])
          | _, _ => acc
        else acc) ([], [])
    (step.1, step.2, expanded)
  else
    if 1 < canonicalTrainData.length then
      let step := (canonicalTrainData.zip canonicalTrainData.tail).foldl
        (fun (acc : List (ℤ × List (List ℚ)) × List (ℤ × ℤ)) pc =>
          let flows := getFlowsF pc.1.2 env.selectedCountries
          let tm := estimateTransitionMatrix logF expF flows
            env.selectedCountries distances conn env.distanceEffect
            env.connectivityEffect
          (acc.1 ++ [(pc.2.1, tm)], acc.2 ++ [(pc.1.1, pc.2.1)])) ([], [])
      (step.1, step.2, [])
    else ([], [], [])

/-- `generatePredictions`: guards, reset of the previous run's result state,
matrix building with fallbacks, the two fatal throws, sampling, prediction
assembly and metrics.  Returns the final state and the surfaced error, if
any. -/
def generatePredictionsRun {δ : Type} (logF expF sqrtF : ℚ → ℚ)
    (getFlowsF : δ → List String → (String → Option Flow))
    (getPopF : δ → List String → (String → ℚ))
    (sampler : List (List ℚ) → (String → ℚ) → List String → ℕ → ℕ →
      List ℕ → ℤ → List WorkerOut)
    (distances : String → String → Option ℚ) (conn : String → String → ℚ)
    (env : RunEnv δ) (st : AppState) : AppState × Option String :=
  let hasInput := if env.inputMode = "single" then env.inputYear.isSome
    else env.inputYearsMulti ≠ []
  if ¬hasInput ∨ env.targetYear = none ∨ env.migrationData.length = 0 ∨
      env.selectedCountries.length < 2 then (st, none)
  else if env.targetValidationError ≠ "" then (st, none)
  else
    let st1 : AppState := { st with
      resultsReady := false
      predictions := []
      transitionMatrices := []
      averageTransitionMatrix := none
      validationMetrics := none
      trainingPairs := [] }
    let canonicalTrainData := (env.migrationData.filter
      (fun d => 2002 ≤ d.1 ∧ d.1 ≤ 2020)).insertionSort
      (fun a b => a.1 ≤ b.1)
    let built := buildTrainingTransitionMatricesAndPairs logF expF getFlowsF
      distances conn env env.inputMode env.inputYearsMulti canonicalTrainData
    let useFallback := built.1 = [] ∧ 1 < canonicalTrainData.length
    let fallback := buildTrainingTransitionMatricesAndPairs logF expF
      getFlowsF distances conn env "single" [] canonicalTrainData
    let transMatrices1 := if useFallback then fallback.1 else built.1
    let explicitPairs := if useFallback then fallback.2.1 else built.2.1
    let usedExpandedYears := if useFallback then [] else built.2.2
    let finalAvgMatrix0 :=
      averageTransitionMatrixFrom transMatrices1 env.selectedCountries
    let startKey := if env.inputMode = "single" then env.inputYear.getD 0
      else listMax env.inputYearsMulti
    let second :=
      match finalAvgMatrix0 with
      | some m => (transMatrices1, some m)
      | none =>
          match env.yearIndex startKey with
          | some row =>
              let flows := getFlowsF row env.selectedCountries
              let tm := estimateTransitionMatrix logF expF flows
                env.selectedCountries distances conn env.distanceEffect
                env.connectivityEffect
              ([(startKey, tm)], some tm)
          | none => (transMatrices1, (none : Option (List (List ℚ))))
    let transMatrices2 := second.1
    let finalAvgMatrix := second.2
    match env.yearIndex startKey with
    | none => (st1, some "No initial population data available")
    | some popRow =>
        let initPop := getPopF popRow env.selectedCountries
        let st2 := { st1 with
          transitionMatrices := transMatrices2
          trainingPairs := explicitPairs
          expandedYears := usedExpandedYears }
        let steps : ℤ := env.targetYear.getD 0 - startKey
        let avgMat :=
          match finalAvgMatrix with
          | some m => some m
          | none =>
              if transMatrices2 ≠ [] then
                averageTransitionMatrixFrom transMatrices2
                  env.selectedCountries
              else none
        match avgMat with
        | none => (st2, some "No transition matrix available")
        | some m =>
            let forwardResults := sampler m initPop env.selectedCountries
              steps.toNat env.ensembleSize env.rngSeed startKey
            let allPredictions := (List.range (steps + 1).toNat).map
              (fun (step : ℕ) =>
                let year := startKey + (step : ℤ)
                let plu :=
                  match forwardResults.get? step with
                  | some r => (r.mean, r.lower, r.upper)
                  | none =>
                      (env.selectedCountries.foldl
                          (fun a c => objWrite a c 0) emptyPop,
                        env.selectedCountries.foldl
                          (fun a c => objWrite a c 0) emptyPop,
                        env.selectedCountries.foldl
                          (fun a c => objWrite a c 0) emptyPop)
                { year := year
                  phase := if step = 0 then "input" else "prediction"
                  predicted := some plu.1
                  actualData := (env.yearIndex year).map
                    (fun row => getPopF row env.selectedCountries)
                  lower := some plu.2.1
                  upper := some plu.2.2 })
            let validationPredictions := allPredictions.filter
              (fun p => p.phase = "prediction" ∧ p.actualData.isSome)
            let st3 := { st2 with
              predictions := allPredictions
              averageTransitionMatrix := finalAvgMatrix
              validationMetrics :=
                if 0 < validationPredictions.length then
                  some (calculateMetrics sqrtF validationPredictions
                    env.selectedCountries)
                else st2.validationMetrics
              resultsReady := true }
            (st3, none)

/-- A concrete run environment whose chosen start year (2005) has no data
row: the run hits the `"No initial population data available"` fatal path
after passing all guards. -/
def c6Env : RunEnv Unit where
  inputMode := "single"
  inputYear := some 2005
  inputYearsMulti := []
  targetYear := some 2010
  targetValidationError := ""
  migrationData := [(2003, ())]
  years := [2003]
  yearIndex := fun y => if y = 2003 then some () else none
  selectedCountries := ["A", "B"]
  distanceEffect := 0
  connectivityEffect := 0
  ensembleSize := 100
  rngSeed := []

/-- A prior state holding the results of an earlier successful run. -/
def c6Prior : AppState where
  predictions := [⟨2004, "prediction", some emptyPop, none, some emptyPop,
    some emptyPop⟩]
  transitionMatrices := []
  averageTransitionMatrix := none
  validationMetrics := some ⟨1, 1, 1, 1⟩
  trainingPairs := []
  expandedYears := []
  resultsReady := true

/-! ### Row-sum analysis of the estimator -/

theorem sum_range_ite (p : ℚ) (n i : ℕ) (h : i < n) :
    ((List.range n).map (fun j => if i = j then p else 0)).sum = p := by
  rw [sum_range_map, Finset.sum_ite_eq, if_pos (Finset.mem_range.mpr h)]

theorem sum_map_div (l : List ℚ) (r : ℚ) :
    (l.map (fun v => v / r)).sum = l.sum / r := by
  induction l with
  | nil => simp
  | cons a t ih => simp [ih, add_div]

theorem sum_stay_row (p S : ℚ) (w : ℕ → ℚ) (n i : ℕ) (hi : i < n) (hwi : w i = 0)
    (hS : ((List.range n).map w).sum = S) (hpos : 0 < S) :
    ((List.range n).map (fun j =>
      if i = j then p else (1 - p) * (w j / S))).sum = 1 := by
  rw [sum_range_map]
  have hmem : i ∈ Finset.range n := Finset.mem_range.mpr hi
  rw [← Finset.add_sum_erase _ _ hmem, if_pos rfl]
  have h2 : ∑ j ∈ (Finset.range n).erase i,
      (if i = j then p else (1 - p) * (w j / S))
      = ∑ j ∈ (Finset.range n).erase i, (1 - p) * (w j / S) := by
    refine Finset.sum_congr rfl fun j hj => ?_
    exact if_neg fun h => (Finset.mem_erase.mp hj).1 h.symm
  have h3 : ∑ j ∈ (Finset.range n).erase i, w j = S := by
    rw [Finset.sum_erase_eq_sub hmem, hwi, sub_zero, ← sum_range_map, hS]
  rw [h2, ← Finset.mul_sum, ← Finset.sum_div, h3, div_self (ne_of_gt hpos),
    mul_one]
  ring

theorem estRowCore_eq_of_pos (p : ℚ) (w : ℕ → ℚ) (n i : ℕ) (hi : i < n)
    (hwi : w i = 0) (hS : 0 < ((List.range n).map w).sum) :
    estRowCore p w n i = (List.range n).map (fun j =>
      if i = j then p
      else (1 - p) * (w j / ((List.range n).map w).sum)) := by
  simp only [estRowCore]
  have hrow : ((List.range n).map (fun j =>
      if i = j then p
      else if 0 < ((List.range n).map w).sum then
        (1 - p) * (w j / ((List.range n).map w).sum) else 0))
      = (List.range n).map (fun j =>
        if i = j then p
        else (1 - p) * (w j / ((List.range n).map w).sum)) := by
    refine List.map_congr_left fun j _ => ?_
    by_cases h : i = j <;> simp [h, hS]
  rw [hrow, sum_stay_row p _ w n i hi hwi rfl hS]
  norm_num

theorem estRowCore_eq_of_nonpos (p : ℚ) (w : ℕ → ℚ) (n i : ℕ) (hi : i < n)
    (hp : 1 / 2 ≤ p) (hS : ¬ 0 < ((List.range n).map w).sum) :
    estRowCore p w n i = identityRow n i := by
  simp only [estRowCore]
  have hppos : 0 < p := lt_of_lt_of_le (by norm_num) hp
  have hrow : ((List.range n).map (fun j =>
      if i = j then p
      else if 0 < ((List.range n).map w).sum then
        (1 - p) * (w j / ((List.range n).map w).sum) else 0))
      = (List.range n).map (fun j => if i = j then p else 0) := by
    refine List.map_congr_left fun j _ => ?_
    by_cases h : i = j <;> simp [h, hS]
  rw [hrow, sum_range_ite p n i hi, if_pos hppos, identityRow]
  rw [List.map_map]
  refine List.map_congr_left fun j _ => ?_
  by_cases h : i = j <;>
    simp [h, Function.comp, div_self (ne_of_gt hppos)]

theorem estRowCore_sum (p : ℚ) (w : ℕ → ℚ) (n i : ℕ) (hi : i < n)
    (hwi : w i = 0) (hp : 1 / 2 ≤ p) : (estRowCore p w n i).sum = 1 := by
  by_cases hS : 0 < ((List.range n).map w).sum
  · rw [estRowCore_eq_of_pos p w n i hi hwi hS,
      sum_stay_row p _ w n i hi hwi rfl hS]
  · rw [estRowCore_eq_of_nonpos p w n i hi hp hS, identityRow,
      sum_range_ite 1 n i hi]

theorem identityRow_getD (n i j : ℕ) (hj : j < n) :
    (identityRow n i).getD j 0 = if i = j then 1 else 0 :=
  getD_range_map _ _ _ _ hj

theorem rowWeight_nonneg (logF expF : ℚ → ℚ) (flows : String → Option Flow)
    (countries : List String) (distances : String → String → Option ℚ)
    (conn : String → String → ℚ) (distCoeff connCoeff : ℚ)
    (hexp : ∀ q, 0 ≤ expF q) (hconn : ∀ a b, 0 ≤ conn a b)
    (hcc : 0 ≤ connCoeff) (i j : ℕ) :
    0 ≤ rowWeight logF expF flows countries distances conn distCoeff connCoeff
      i j := by
  unfold rowWeight
  by_cases h : i = j
  · simp [h]
  · rw [if_neg h]
    unfold weightFor
    have h1 : (0 : ℚ) ≤ max (1 / 10000) (logF
        (((flows (countries.getD j "")).map Flow.inflow).getD 0 + 10)) :=
      le_trans (by norm_num) (le_max_left _ _)
    have h3 : (0 : ℚ) ≤ 1 + connCoeff * conn (countries.getD i "")
        (countries.getD j "") :=
      add_nonneg zero_le_one (mul_nonneg hcc (hconn _ _))
    exact mul_nonneg (mul_nonneg h1 (hexp _)) h3

theorem rowWeight_pos (logF expF : ℚ → ℚ) (flows : String → Option Flow)
    (countries : List String) (distances : String → String → Option ℚ)
    (conn : String → String → ℚ) (distCoeff connCoeff : ℚ)
    (hexp : ∀ q, 0 < expF q) (hconn : ∀ a b, 0 ≤ conn a b)
    (hcc : 0 ≤ connCoeff) (i j : ℕ) (hij : i ≠ j) :
    0 < rowWeight logF expF flows countries distances conn distCoeff connCoeff
      i j := by
  rw [rowWeight, if_neg hij]
  unfold weightFor
  have h1 : (0 : ℚ) < max (1 / 10000) (logF
      (((flows (countries.getD j "")).map Flow.inflow).getD 0 + 10)) :=
    lt_of_lt_of_le (by norm_num) (le_max_left _ _)
  have h3 : (0 : ℚ) < 1 + connCoeff * conn (countries.getD i "")
      (countries.getD j "") :=
    lt_of_lt_of_le one_pos (le_add_of_nonneg_right (mul_nonneg hcc (hconn _ _)))
  exact mul_pos (mul_pos h1 (hexp _)) h3

theorem rowWeightSum_pos (logF expF : ℚ → ℚ) (flows : String → Option Flow)
    (countries : List String) (distances : String → String → Option ℚ)
    (conn : String → String → ℚ) (distCoeff connCoeff : ℚ)
    (hexp : ∀ q, 0 < expF q) (hconn : ∀ a b, 0 ≤ conn a b)
    (hcc : 0 ≤ connCoeff) (hn : 2 ≤ countries.length) (i : ℕ)
    (_hi : i < countries.length) :
    0 < ((List.range countries.length).map
      (rowWeight logF expF flows countries distances conn distCoeff connCoeff
        i)).sum := by
  rw [sum_range_map]
  apply Finset.sum_pos'
  · intro j _
    exact rowWeight_nonneg logF expF flows countries distances conn distCoeff
      connCoeff (fun q => le_of_lt (hexp q)) hconn hcc i j
  · refine ⟨if i = 0 then 1 else 0, ?_, ?_⟩
    · rw [Finset.mem_range]
      by_cases h : i = 0 <;> simp [h] <;> omega
    · apply rowWeight_pos logF expF flows countries distances conn distCoeff
        connCoeff hexp hconn hcc
      by_cases h : i = 0 <;> simp [h]

theorem stayProbOf_ge_half (f : Flow) : 1 / 2 ≤ stayProbOf f := le_max_left _ _

theorem stayProbOf_le_one (f : Flow) (hout : 0 ≤ f.outflow) :
    stayProbOf f ≤ 1 := by
  unfold stayProbOf
  have h1 : (0 : ℚ) < max 1 f.stock := lt_of_lt_of_le one_pos (le_max_left _ _)
  have : 0 ≤ f.outflow / max 1 f.stock := div_nonneg hout (le_of_lt h1)
  rw [max_le_iff]
  constructor
  · norm_num
  · linarith

theorem rowWeight_self (logF expF : ℚ → ℚ) (flows : String → Option Flow)
    (countries : List String) (distances : String → String → Option ℚ)
    (conn : String → String → ℚ) (distCoeff connCoeff : ℚ) (i : ℕ) :
    rowWeight logF expF flows countries distances conn distCoeff connCoeff i i
      = 0 := by
  simp [rowWeight]

theorem estRow_sum (logF expF : ℚ → ℚ) (flows : String → Option Flow)
    (countries : List String) (distances : String → String → Option ℚ)
    (conn : String → String → ℚ) (distCoeff connCoeff : ℚ) (i : ℕ)
    (hi : i < countries.length) :
    (estRow logF expF flows countries distances conn distCoeff connCoeff i).sum
      = 1 := by
  cases hf : flows (countries.getD i "") with
  | none =>
      simp only [estRow, hf]
      exact sum_range_ite 1 countries.length i hi
  | some f =>
      by_cases hst : f.stock = 0
      · simp only [estRow, hf, if_pos hst]
        exact sum_range_ite 1 countries.length i hi
      · simp only [estRow, hf, if_neg hst]
        exact estRowCore_sum _ _ _ _ hi
          (rowWeight_self logF expF flows countries distances conn distCoeff
            connCoeff i) (stayProbOf_ge_half f)

/-! ### Claim C1 -/

/-- **C1**: for every flows input (per-location inflow/outflow/stock
non-negative), every ordered location list with at least two locations, every
distance/connectivity table, and coefficients in [0,1], every row of the
matrix returned by `estimateTransitionMatrix` whose origin has positive stock
(a non-identity row) sums to 1 within 1e-9 (here: exactly, in exact
arithmetic). -/
theorem c1_row_sums_within_tolerance (logF expF : ℚ → ℚ)
    (flows : String → Option Flow) (countries : List String)
    (distances : String → String → Option ℚ) (conn : String → String → ℚ)
    (distCoeff connCoeff : ℚ)
    (_hflows : ∀ c g, flows c = some g →
      0 ≤ g.inflow ∧ 0 ≤ g.outflow ∧ 0 ≤ g.stock)
    (_hdc : 0 ≤ distCoeff ∧ distCoeff ≤ 1)
    (_hcc : 0 ≤ connCoeff ∧ connCoeff ≤ 1)
    (_hn : 2 ≤ countries.length)
    (i : ℕ) (hi : i < countries.length) (f : Flow)
    (_hf : flows (countries.getD i "") = some f) (_hpos : 0 < f.stock) :
    |((estimateTransitionMatrix logF expF flows countries distances conn
        distCoeff connCoeff).getD i []).sum - 1| ≤ 1 / 1000000000 := by
  unfold estimateTransitionMatrix
  rw [getD_range_map _ _ _ _ hi,
    estRow_sum logF expF flows countries distances conn distCoeff connCoeff
      i hi]
  norm_num

/-- Witness for C1 at the spec's own two-location example (A: stock 1000,
outflow 100, inflow 50; B: stock 500, outflow 20, inflow 200). -/
theorem c1_row_sums_within_tolerance_witness :
    ((fun c => if c = "A" then some (Flow.mk 50 100 1000)
        else if c = "B" then some (Flow.mk 200 20 500) else none) "A"
      = some (Flow.mk 50 100 1000)) ∧
    |((estimateTransitionMatrix (fun _ => 1) (fun _ => 1)
        (fun c => if c = "A" then some (Flow.mk 50 100 1000)
          else if c = "B" then some (Flow.mk 200 20 500) else none)
        ["A", "B"] (fun _ _ => some 1000) (fun _ _ => 0) (1 / 2)
        (3 / 10)).getD 0 []).sum - 1| ≤ 1 / 1000000000 := by
  refine ⟨rfl, ?_⟩
  refine c1_row_sums_within_tolerance _ _ _ _ _ _ _ _ ?_ ?_ ?_ ?_ 0 ?_
    (Flow.mk 50 100 1000) ?_ ?_
  · intro c g hg
    by_cases h1 : c = "A"
    · subst h1
      simp at hg
      subst hg
      norm_num
    · by_cases h2 : c = "B"
      · subst h2
        simp [h1] at hg
        subst hg
        norm_num
      · simp [h1, h2] at hg
  · exact ⟨by norm_num, by norm_num⟩
  · exact ⟨by norm_num, by norm_num⟩
  · simp
  · simp
  · rfl
  · norm_num

/-! ### Claims C7 and C10 -/

/-- Every row of the estimator is either exactly the identity row (missing or
zero stock, or a degenerate weight sum) or the unnormalized stay/spread row
(whose sum is already exactly 1). -/
theorem estRow_cases (logF expF : ℚ → ℚ) (flows : String → Option Flow)
    (countries : List String) (distances : String → String → Option ℚ)
    (conn : String → String → ℚ) (distCoeff connCoeff : ℚ) (i : ℕ)
    (hi : i < countries.length) :
    estRow logF expF flows countries distances conn distCoeff connCoeff i
      = identityRow countries.length i
    ∨ ∃ f, flows (countries.getD i "") = some f ∧ f.stock ≠ 0
        ∧ 0 < ((List.range countries.length).map
            (rowWeight logF expF flows countries distances conn distCoeff
              connCoeff i)).sum
        ∧ estRow logF expF flows countries distances conn distCoeff connCoeff
            i = (List.range countries.length).map (fun j =>
              if i = j then stayProbOf f
              else (1 - stayProbOf f) *
                (rowWeight logF expF flows countries distances conn distCoeff
                    connCoeff i j /
                  ((List.range countries.length).map
                    (rowWeight logF expF flows countries distances conn
                      distCoeff connCoeff i)).sum)) := by
  cases hf : flows (countries.getD i "") with
  | none =>
      refine Or.inl ?_
      simp only [estRow, hf]
  | some f =>
      by_cases hst : f.stock = 0
      · refine Or.inl ?_
        simp only [estRow, hf]
        rw [if_pos hst]
      · by_cases hS : 0 < ((List.range countries.length).map
            (rowWeight logF expF flows countries distances conn distCoeff
              connCoeff i)).sum
        · refine Or.inr ⟨f, rfl, hst, hS, ?_⟩
          simp only [estRow, hf]
          rw [if_neg hst]
          exact estRowCore_eq_of_pos _ _ _ _ hi
            (rowWeight_self logF expF flows countries distances conn distCoeff
              connCoeff i) hS
        · refine Or.inl ?_
          simp only [estRow, hf]
          rw [if_neg hst]
          exact estRowCore_eq_of_nonpos _ _ _ _ hi (stayProbOf_ge_half f) hS

/-- **C7**: origins with zero or missing stock get exactly the identity row;
origins with positive stock get diagonal (stay) probability
`max(0.5, 1 − outflow/max(1, stock))` (exact arithmetic, at least two
locations). -/
theorem c7_identity_rows_and_stay_probability (logF expF : ℚ → ℚ)
    (flows : String → Option Flow) (countries : List String)
    (distances : String → String → Option ℚ) (conn : String → String → ℚ)
    (distCoeff connCoeff : ℚ)
    (hexp : ∀ q, 0 < expF q) (hconn : ∀ a b, 0 ≤ conn a b)
    (hcc : 0 ≤ connCoeff) (hn : 2 ≤ countries.length) (i : ℕ)
    (hi : i < countries.length) :
    (flows (countries.getD i "") = none →
      (estimateTransitionMatrix logF expF flows countries distances conn
        distCoeff connCoeff).getD i [] = identityRow countries.length i)
    ∧ (∀ f, flows (countries.getD i "") = some f → f.stock = 0 →
      (estimateTransitionMatrix logF expF flows countries distances conn
        distCoeff connCoeff).getD i [] = identityRow countries.length i)
    ∧ (∀ f, flows (countries.getD i "") = some f → 0 < f.stock →
      ((estimateTransitionMatrix logF expF flows countries distances conn
        distCoeff connCoeff).getD i []).getD i 0
        = max (1 / 2) (1 - f.outflow / max 1 f.stock)) := by
  have hM : (estimateTransitionMatrix logF expF flows countries distances conn
      distCoeff connCoeff).getD i []
      = estRow logF expF flows countries distances conn distCoeff connCoeff
        i := by
    unfold estimateTransitionMatrix
    exact getD_range_map _ _ _ _ hi
  refine ⟨?_, ?_, ?_⟩
  · intro hf
    rw [hM]
    simp only [estRow, hf]
  · intro f hf hst
    rw [hM]
    simp only [estRow, hf]
    rw [if_pos hst]
  · intro f hf hst
    have hstne : f.stock ≠ 0 := ne_of_gt hst
    have hS := rowWeightSum_pos logF expF flows countries distances conn
      distCoeff connCoeff hexp hconn hcc hn i hi
    rw [hM]
    have heq : estRow logF expF flows countries distances conn distCoeff
        connCoeff i
        = estRowCore (stayProbOf f)
          (rowWeight logF expF flows countries distances conn distCoeff
            connCoeff i) countries.length i := by
      simp only [estRow, hf]
      rw [if_neg hstne]
    rw [heq, estRowCore_eq_of_pos _ _ _ _ hi
      (rowWeight_self logF expF flows countries distances conn distCoeff
        connCoeff i) hS, getD_range_map _ _ _ _ hi, if_pos rfl, stayProbOf]

/-- Witness for C7 at the spec's example: the stay probability of location A
(stock 1000, outflow 100) is `max(0.5, 1 − 100/1000) = 0.9`. -/
theorem c7_identity_rows_and_stay_probability_witness :
    ((estimateTransitionMatrix (fun _ => 1) (fun _ => 1)
        (fun c => if c = "A" then some (Flow.mk 50 100 1000)
          else if c = "B" then some (Flow.mk 200 20 500) else none)
        ["A", "B"] (fun _ _ => some 1000) (fun _ _ => 0) (1 / 2)
        (3 / 10)).getD 0 []).getD 0 0
      = max (1 / 2) (1 - 100 / max 1 1000)
    ∧ max ((1 : ℚ) / 2) (1 - 100 / max 1 1000) = 9 / 10 := by
  constructor
  · exact (c7_identity_rows_and_stay_probability (fun _ => 1) (fun _ => 1)
      (fun c => if c = "A" then some (Flow.mk 50 100 1000)
        else if c = "B" then some (Flow.mk 200 20 500) else none)
      ["A", "B"] (fun _ _ => some 1000) (fun _ _ => 0) (1 / 2) (3 / 10)
      (fun _ => by norm_num) (fun _ _ => by norm_num) (by norm_num)
      (by norm_num) 0 (by norm_num)).2.2 (Flow.mk 50 100 1000) rfl
      (by norm_num)
  · norm_num

/-- **C10** (implicit): with non-negative flows, every matrix entry is
non-negative, and (exact arithmetic) the diagonal of every positive-stock row
is at least 0.5 — each row is a probability distribution with retention at
least one half. -/
theorem c10_entries_nonneg_and_diag_at_least_half (logF expF : ℚ → ℚ)
    (flows : String → Option Flow) (countries : List String)
    (distances : String → String → Option ℚ) (conn : String → String → ℚ)
    (distCoeff connCoeff : ℚ)
    (hflows : ∀ c g, flows c = some g →
      0 ≤ g.inflow ∧ 0 ≤ g.outflow ∧ 0 ≤ g.stock)
    (hexp : ∀ q, 0 ≤ expF q) (hconn : ∀ a b, 0 ≤ conn a b)
    (hcc : 0 ≤ connCoeff) :
    (∀ i j, i < countries.length → j < countries.length →
      0 ≤ ((estimateTransitionMatrix logF expF flows countries distances conn
        distCoeff connCoeff).getD i []).getD j 0)
    ∧ (∀ i, i < countries.length →
      ∀ f, flows (countries.getD i "") = some f → 0 < f.stock →
      1 / 2 ≤ ((estimateTransitionMatrix logF expF flows countries distances
        conn distCoeff connCoeff).getD i []).getD i 0) := by
  have hM : ∀ i, i < countries.length →
      (estimateTransitionMatrix logF expF flows countries distances conn
        distCoeff connCoeff).getD i []
      = estRow logF expF flows countries distances conn distCoeff connCoeff
        i := by
    intro i hi
    unfold estimateTransitionMatrix
    exact getD_range_map _ _ _ _ hi
  constructor
  · intro i j hi hj
    rw [hM i hi]
    rcases estRow_cases logF expF flows countries distances conn distCoeff
      connCoeff i hi with h | ⟨f, hf, _, hS, h⟩
    · rw [h, identityRow_getD _ _ _ hj]
      by_cases hij : i = j <;> simp [hij]
    · rw [h, getD_range_map _ _ _ _ hj]
      by_cases hij : i = j
      · rw [if_pos hij]
        exact le_trans (by norm_num) (stayProbOf_ge_half f)
      · rw [if_neg hij]
        have hout : 0 ≤ f.outflow := (hflows _ _ hf).2.1
        refine mul_nonneg (sub_nonneg.mpr (stayProbOf_le_one f hout))
          (div_nonneg ?_ (le_of_lt hS))
        exact rowWeight_nonneg logF expF flows countries distances conn
          distCoeff connCoeff hexp hconn hcc i j
  · intro i hi f _ _
    rw [hM i hi]
    rcases estRow_cases logF expF flows countries distances conn distCoeff
      connCoeff i hi with h | ⟨g, _, _, hS, h⟩
    · rw [h, identityRow_getD _ _ _ hi]
      norm_num
    · rw [h, getD_range_map _ _ _ _ hi, if_pos rfl]
      exact stayProbOf_ge_half g

/-- Witness for C10 at the spec's example: the off-diagonal entry (0,1) is
non-negative and the diagonal of row 0 (stock 1000) is at least one half. -/
theorem c10_entries_nonneg_and_diag_at_least_half_witness :
    0 ≤ ((estimateTransitionMatrix (fun _ => 1) (fun _ => 1)
        (fun c => if c = "A" then some (Flow.mk 50 100 1000)
          else if c = "B" then some (Flow.mk 200 20 500) else none)
        ["A", "B"] (fun _ _ => some 1000) (fun _ _ => 0) (1 / 2)
        (3 / 10)).getD 0 []).getD 1 0
    ∧ 1 / 2 ≤ ((estimateTransitionMatrix (fun _ => 1) (fun _ => 1)
        (fun c => if c = "A" then some (Flow.mk 50 100 1000)
          else if c = "B" then some (Flow.mk 200 20 500) else none)
        ["A", "B"] (fun _ _ => some 1000) (fun _ _ => 0) (1 / 2)
        (3 / 10)).getD 0 []).getD 0 0 := by
  have h := c10_entries_nonneg_and_diag_at_least_half (fun _ => 1)
    (fun _ => 1)
    (fun c => if c = "A" then some (Flow.mk 50 100 1000)
      else if c = "B" then some (Flow.mk 200 20 500) else none)
    ["A", "B"] (fun _ _ => some 1000) (fun _ _ => 0) (1 / 2) (3 / 10)
    (by
      intro c g hg
      by_cases h1 : c = "A"
      · subst h1
        simp at hg
        subst hg
        norm_num
      · by_cases h2 : c = "B"
        · subst h2
          simp [h1] at hg
          subst hg
          norm_num
        · simp [h1, h2] at hg)
    (fun _ => by norm_num) (fun _ _ => by norm_num) (by norm_num)
  exact ⟨h.1 0 1 (by norm_num) (by norm_num),
    h.2 0 (by norm_num) (Flow.mk 50 100 1000) rfl (by norm_num)⟩

/-! ### Claim C3: propagation conserves total mass -/

theorem sum_map_pop (pop : String → ℚ) (l : List String) :
    ((List.range l.length).map (fun i => pop (l.getD i ""))).sum
      = (l.map pop).sum := by
  induction l with
  | nil => simp
  | cons c t ih =>
      rw [List.length_cons, List.range_succ_eq_map]
      simp only [List.map_cons, List.map_map, List.sum_cons, List.getD_cons_zero]
      rw [← ih]
      congr 1

/-- **C3**: whenever every row of `T` (read through the same location list)
sums exactly to 1, `propagatePopulation` conserves total mass:
`Σ newPop = Σ oldPop` in exact arithmetic. -/
theorem c3_propagate_conserves_mass (currentPop : String → ℚ)
    (transMatrix : List (List ℚ)) (countries : List String)
    (hrows : ∀ i, i < countries.length →
      ((List.range countries.length).map
        (fun j => (transMatrix.getD i []).getD j 0)).sum = 1) :
    (propagatePopulation currentPop transMatrix countries).sum
      = (countries.map currentPop).sum := by
  unfold propagatePopulation
  rw [sum_range_map]
  have h1 : ∑ j ∈ Finset.range countries.length,
      ((List.range countries.length).map (fun i =>
        currentPop (countries.getD i "") *
          ((transMatrix.getD i []).getD j 0))).sum
      = ∑ j ∈ Finset.range countries.length,
        ∑ i ∈ Finset.range countries.length,
          currentPop (countries.getD i "") *
            ((transMatrix.getD i []).getD j 0) :=
    Finset.sum_congr rfl fun j _ => sum_range_map _ _
  rw [h1, Finset.sum_comm]
  have h2 : ∀ i ∈ Finset.range countries.length,
      ∑ j ∈ Finset.range countries.length,
        currentPop (countries.getD i "") *
          ((transMatrix.getD i []).getD j 0)
      = currentPop (countries.getD i "") := by
    intro i hi
    rw [← Finset.mul_sum, ← sum_range_map,
      hrows i (Finset.mem_range.mp hi), mul_one]
  rw [Finset.sum_congr rfl h2, ← sum_map_pop currentPop countries,
    sum_range_map]

/-- Witness for C3: two locations, `T = [[1/2, 1/2], [0, 1]]`,
`pop = (A ↦ 3, B ↦ 4)`; total mass 7 is conserved. -/
theorem c3_propagate_conserves_mass_witness :
    (((List.range 2).map (fun j =>
      (([[(1 : ℚ)/2, 1/2], [0, 1]].getD 0 []).getD j 0))).sum = 1)
    ∧ (((List.range 2).map (fun j =>
      (([[(1 : ℚ)/2, 1/2], [0, 1]].getD 1 []).getD j 0))).sum = 1)
    ∧ (propagatePopulation (fun c => if c = "A" then 3 else 4)
        [[(1 : ℚ)/2, 1/2], [0, 1]] ["A", "B"]).sum
      = (["A", "B"].map (fun c => if c = "A" then (3 : ℚ) else 4)).sum := by
  refine ⟨by norm_num [List.range_succ], by norm_num [List.range_succ], ?_⟩
  refine c3_propagate_conserves_mass _ _ _ ?_
  intro i hi
  simp only [List.length_cons, List.length_nil] at hi
  interval_cases i
  · norm_num [List.range_succ]
  · norm_num [List.range_succ]

/-! ### Claim C8: YearExpander -/

theorem mem_addUnique (l : List ℤ) (y z : ℤ) :
    z ∈ addUnique l y ↔ z ∈ l ∨ z = y := by
  unfold addUnique
  by_cases h : y ∈ l
  · rw [if_pos h]
    constructor
    · exact Or.inl
    · rintro (hz | rfl)
      · exact hz
      · exact h
  · rw [if_neg h]
    simp

theorem mem_foldl_addUnique (l : List ℤ) (init : List ℤ) (z : ℤ) :
    z ∈ l.foldl addUnique init ↔ z ∈ init ∨ z ∈ l := by
  induction l generalizing init with
  | nil => simp
  | cons a t ih =>
      rw [List.foldl_cons, ih, mem_addUnique, List.mem_cons]
      tauto

theorem mem_adjStep (avail : List ℤ) (acc : List ℤ) (a z : ℤ) :
    (z ∈ (if a + 1 ∈ avail then
        addUnique (if a - 1 ∈ avail then addUnique acc (a - 1) else acc)
          (a + 1)
      else if a - 1 ∈ avail then addUnique acc (a - 1) else acc))
    ↔ z ∈ acc ∨ ((z = a - 1 ∨ z = a + 1) ∧ z ∈ avail) := by
  by_cases h1 : a - 1 ∈ avail
  · by_cases h2 : a + 1 ∈ avail
    · rw [if_pos h2, mem_addUnique, if_pos h1, mem_addUnique]
      constructor
      · rintro ((hz | rfl) | rfl)
        · exact Or.inl hz
        · exact Or.inr ⟨Or.inl rfl, h1⟩
        · exact Or.inr ⟨Or.inr rfl, h2⟩
      · rintro (hz | ⟨rfl | rfl, _⟩)
        · exact Or.inl (Or.inl hz)
        · exact Or.inl (Or.inr rfl)
        · exact Or.inr rfl
    · rw [if_neg h2, if_pos h1, mem_addUnique]
      constructor
      · rintro (hz | rfl)
        · exact Or.inl hz
        · exact Or.inr ⟨Or.inl rfl, h1⟩
      · rintro (hz | ⟨rfl | rfl, hav⟩)
        · exact Or.inl hz
        · exact Or.inr rfl
        · exact absurd hav h2
  · by_cases h2 : a + 1 ∈ avail
    · rw [if_pos h2, mem_addUnique, if_neg h1]
      constructor
      · rintro (hz | rfl)
        · exact Or.inl hz
        · exact Or.inr ⟨Or.inr rfl, h2⟩
      · rintro (hz | ⟨rfl | rfl, hav⟩)
        · exact Or.inl hz
        · exact absurd hav h1
        · exact Or.inr rfl
    · rw [if_neg h2, if_neg h1]
      constructor
      · exact Or.inl
      · rintro (hz | ⟨rfl | rfl, hav⟩)
        · exact hz
        · exact absurd hav h1
        · exact absurd hav h2

theorem mem_foldl_adjStep (avail : List ℤ) (l : List ℤ) (init : List ℤ)
    (z : ℤ) :
    (z ∈ l.foldl (fun acc y =>
      let acc1 := if y - 1 ∈ avail then addUnique acc (y - 1) else acc
      if y + 1 ∈ avail then addUnique acc1 (y + 1) else acc1) init)
    ↔ z ∈ init ∨ ∃ y ∈ l, (z = y - 1 ∨ z = y + 1) ∧ z ∈ avail := by
  induction l generalizing init with
  | nil => simp
  | cons a t ih =>
      rw [List.foldl_cons, ih]
      have hstep := mem_adjStep avail init a z
      simp only [List.mem_cons]
      constructor
      · rintro (hin | hy)
        · rcases hstep.mp hin with h | ⟨hor, hav⟩
          · exact Or.inl h
          · exact Or.inr ⟨a, Or.inl rfl, hor, hav⟩
        · obtain ⟨y, hy1, hy2⟩ := hy
          exact Or.inr ⟨y, Or.inr hy1, hy2⟩
      · rintro (hin | ⟨y, rfl | hy1, hy2⟩)
        · exact Or.inl (hstep.mpr (Or.inl hin))
        · exact Or.inl (hstep.mpr (Or.inr hy2))
        · exact Or.inr ⟨y, hy1, hy2⟩

theorem mem_expandSelectedYears (selectedYears availableYears : List ℤ)
    (z : ℤ) :
    z ∈ expandSelectedYearsWithAdjacents selectedYears availableYears
    ↔ z ∈ selectedYears
      ∨ ∃ y ∈ selectedYears, (z = y - 1 ∨ z = y + 1) ∧ z ∈ availableYears := by
  unfold expandSelectedYearsWithAdjacents
  rw [(List.perm_insertionSort _ _).mem_iff, mem_foldl_adjStep,
    mem_foldl_addUnique]
  simp

theorem sorted_expandSelectedYears (selectedYears availableYears : List ℤ) :
    List.Sorted (fun a b => a ≤ b)
      (expandSelectedYearsWithAdjacents selectedYears availableYears) :=
  List.sorted_insertionSort _ _

theorem mem_computePairs (l : List ℤ) (p : ℤ × ℤ) :
    p ∈ computePairsFromExpanded l
    ↔ ∃ i, i + 1 < l.length ∧ l.getD i 0 = p.1 ∧ l.getD (i + 1) 0 = p.2
        ∧ p.2 - p.1 = 1 := by
  induction l with
  | nil =>
      constructor
      · intro h
        simp [computePairsFromExpanded] at h
      · rintro ⟨i, hi, _⟩
        simp at hi
  | cons a t ih =>
      cases t with
      | nil =>
          constructor
          · intro h
            simp [computePairsFromExpanded] at h
          · rintro ⟨i, hi, _⟩
            simp at hi
      | cons b r =>
          rw [computePairsFromExpanded, List.mem_append, ih]
          constructor
          · rintro (hl | ⟨i, hi, h1, h2, h3⟩)
            · by_cases hba : b - a = 1
              · rw [if_pos hba] at hl
                simp only [List.mem_singleton] at hl
                subst hl
                refine ⟨0, by simp, rfl, rfl, hba⟩
              · rw [if_neg hba] at hl
                simp at hl
            · refine ⟨i + 1, ?_, ?_, ?_, h3⟩
              · simpa using Nat.succ_lt_succ hi
              · simpa using h1
              · simpa using h2
          · rintro ⟨i, hi, h1, h2, h3⟩
            cases i with
            | zero =>
                left
                simp only [List.getD_cons_zero] at h1
                simp only [List.getD_cons_succ, List.getD_cons_zero] at h2
                have hba : b - a = 1 := by rw [h1, h2]; exact h3
                rw [if_pos hba]
                simp only [List.mem_singleton]
                exact Prod.ext h1.symm h2.symm
            | succ i0 =>
                right
                refine ⟨i0, ?_, ?_, ?_, h3⟩
                · simpa using Nat.lt_of_succ_lt_succ hi
                · simpa using h1
                · simpa using h2

/-- **C8**: the concrete example
`expand({2005, 2010}, {2000..2020}) = [2004, 2005, 2006, 2009, 2010, 2011]`
with pairs `[(2004,2005), (2005,2006), (2009,2010), (2010,2011)]`, and in
general: membership in the expansion is selection or an in-data neighbor of a
selection, the expansion is sorted ascending, and `pairs` emits `(y, y+1)`
for exactly the adjacent elements with a one-year gap. -/
theorem c8_year_expander :
    expandSelectedYearsWithAdjacents [2005, 2010]
        ((List.range 21).map (fun k => 2000 + (k : ℤ)))
      = [2004, 2005, 2006, 2009, 2010, 2011]
    ∧ computePairsFromExpanded [2004, 2005, 2006, 2009, 2010, 2011]
      = [(2004, 2005), (2005, 2006), (2009, 2010), (2010, 2011)]
    ∧ (∀ S A : List ℤ, ∀ z : ℤ,
        z ∈ expandSelectedYearsWithAdjacents S A
        ↔ z ∈ S ∨ ∃ y ∈ S, (z = y - 1 ∨ z = y + 1) ∧ z ∈ A)
    ∧ (∀ S A : List ℤ, List.Sorted (fun a b => a ≤ b)
        (expandSelectedYearsWithAdjacents S A))
    ∧ (∀ l : List ℤ, ∀ p : ℤ × ℤ, p ∈ computePairsFromExpanded l
        ↔ ∃ i, i + 1 < l.length ∧ l.getD i 0 = p.1 ∧ l.getD (i + 1) 0 = p.2
            ∧ p.2 - p.1 = 1) :=
  ⟨by decide, by decide, mem_expandSelectedYears,
    sorted_expandSelectedYears, mem_computePairs⟩

/-! ### Claim C5: the seeded RNG draw -/

/-- **C5 counterexample**: the claim says each draw is
`state / 2^32 ∈ [0, 1)` after the LCG update.  From state 1000 the updated
state is 2678429223 ≥ 2^31, so the JS `state & 0xffffffff` reads it as the
negative Int32 −1616538073 and the code divides by 2^32 − 1, not 2^32: the
draw is negative and differs from `state / 2^32`. -/
theorem c5_lcg_draw_counterexample :
    lcgDraw 1000
      ≠ (((1664525 * 1000 + 1013904223) % 4294967296 : ℕ) : ℚ) / 4294967296
    ∧ ¬ (0 ≤ lcgDraw 1000 ∧ lcgDraw 1000 < 1) := by
  have h1 : lcgDraw 1000 = -1616538073 / 4294967295 := by
    norm_num [lcgDraw, lcgNext, toInt32]
  constructor
  · rw [h1]
    norm_num
  · rw [h1]
    rintro ⟨h0, -⟩
    norm_num at h0

/-- **C5 (amended)**: each draw of the seeded generator first updates the
state by `state = (1664525·state + 1013904223) mod 2^32` and then returns
`toInt32(state) / (2^32 − 1)` (the JS `(state & 0xffffffff) / 4294967295`),
so every draw lies in `[−2^31/(2^32−1), (2^31−1)/(2^32−1)]` — not in
`[0, 1)`. -/
theorem c5_lcg_draw_amended (state : ℕ) :
    lcgNext state = (1664525 * state + 1013904223) % 4294967296
    ∧ lcgDraw state = (toInt32 (lcgNext state) : ℚ) / 4294967295
    ∧ -(2147483648 / 4294967295 : ℚ) ≤ lcgDraw state
    ∧ lcgDraw state ≤ 2147483647 / 4294967295 := by
  refine ⟨rfl, rfl, ?_, ?_⟩
  · unfold lcgDraw toInt32
    have hlt : lcgNext state < 4294967296 := Nat.mod_lt _ (by norm_num)
    by_cases h : lcgNext state < 2147483648
    · rw [if_pos h]
      have : (0 : ℚ) ≤ (lcgNext state : ℚ) := Nat.cast_nonneg _
      have hneg : -(2147483648 / 4294967295 : ℚ) ≤ 0 := by norm_num
      exact le_trans hneg (div_nonneg this (by norm_num))
    · rw [if_neg h, ← neg_div, div_le_div_iff_of_pos_right
        (by norm_num : (0 : ℚ) < 4294967295)]
      push_cast
      have : (2147483648 : ℚ) ≤ (lcgNext state : ℚ) := by
        exact_mod_cast Nat.le_of_not_lt h
      linarith
  · unfold lcgDraw toInt32
    have hlt : lcgNext state < 4294967296 := Nat.mod_lt _ (by norm_num)
    by_cases h : lcgNext state < 2147483648
    · rw [if_pos h]
      rw [div_le_div_iff_of_pos_right (by norm_num : (0 : ℚ) < 4294967295)]
      have : (lcgNext state : ℚ) ≤ 2147483647 := by
        exact_mod_cast Nat.lt_succ_iff.mp h
      push_cast
      linarith
    · rw [if_neg h]
      rw [div_le_div_iff_of_pos_right (by norm_num : (0 : ℚ) < 4294967295)]
      have : (lcgNext state : ℚ) ≤ 4294967295 := by
        exact_mod_cast Nat.lt_succ_iff.mp hlt
      push_cast
      linarith

/-! ### Claim C2: determinism of the seeded worker run -/

/-- **C2**: the seeded ensemble worker is a pure function of the seed string,
matrix, initial population, location list, ensemble size, step count and
start year: two runs with equal parameters produce equal (`mean`, `lower`,
`upper`) sequences.  (The unseeded `Math.random` path is excluded by the
non-empty-seed hypothesis, as in the claim.) -/
theorem c2_worker_determinism (logF : ℚ → ℚ) (M1 M2 : List (List ℚ))
    (p1 p2 : String → ℚ) (cs1 cs2 : List String) (steps1 steps2 : ℕ)
    (es1 es2 : ℕ) (sd1 sd2 : List ℕ) (y1 y2 : ℤ)
    (_hne : sd1 ≠ [])
    (hM : M1 = M2) (hp : p1 = p2) (hcs : cs1 = cs2)
    (hsteps : steps1 = steps2) (hes : es1 = es2) (hsd : sd1 = sd2)
    (hy : y1 = y2) :
    runWorker logF M1 p1 cs1 steps1 es1 sd1 y1
      = runWorker logF M2 p2 cs2 steps2 es2 sd2 y2 := by
  subst hM hp hcs hsteps hes hsd hy
  rfl

/-- Witness for C2 at a concrete seeded run (seed "a" = char code 97). -/
theorem c2_worker_determinism_witness :
    ([97] : List ℕ) ≠ []
    ∧ runWorker (fun q => q) [[1]] (fun _ => 1) ["A"] 1 1 [97] 2000
      = runWorker (fun q => q) [[1]] (fun _ => 1) ["A"] 1 1 [97] 2000 :=
  ⟨by simp, c2_worker_determinism (fun q => q) [[1]] [[1]] (fun _ => 1)
    (fun _ => 1) ["A"] ["A"] 1 1 1 1 [97] [97] 2000 2000 (by simp) rfl rfl
    rfl rfl rfl rfl rfl⟩

/-! ### Claim C4: quantile aggregation bounds -/

theorem sorted_getD_mono (l : List ℚ)
    (hs : List.Sorted (fun a b => a ≤ b) l) (i j : ℕ) (hij : i ≤ j)
    (hj : j < l.length) : l.getD i 0 ≤ l.getD j 0 := by
  have hi : i < l.length := lt_of_le_of_lt hij hj
  rw [List.getD_eq_getElem?_getD, List.getD_eq_getElem?_getD,
    List.getElem?_eq_getElem hi, List.getElem?_eq_getElem hj]
  rcases eq_or_lt_of_le hij with rfl | hlt
  · simp
  · simpa using hs.rel_get_of_lt (a := ⟨i, hi⟩) (b := ⟨j, hj⟩) hlt

theorem sum_eq_range_getD (l : List ℚ) :
    ((List.range l.length).map (fun i => l.getD i 0)).sum = l.sum := by
  induction l with
  | nil => simp
  | cons c t ih =>
      rw [List.length_cons, List.range_succ_eq_map]
      simp only [List.map_cons, List.map_map, List.sum_cons,
        List.getD_cons_zero]
      rw [← ih]
      congr 1

/-- **C4 counterexample**: with ensemble size 40 the lower index
`floor(40·0.025) = 1` no longer selects the minimum, and the member multiset
`{0, 10, 10, …, 10}` has `lower = 10 > mean = 9.75`: the aggregation of the
ensemble worker does not satisfy `lower ≤ mean` as claimed. -/
theorem c4_quantile_sanity_counterexample :
    ¬ ((aggregateVals ((0 : ℚ) :: List.replicate 39 10)).2.1
        ≤ (aggregateVals ((0 : ℚ) :: List.replicate 39 10)).1) := by
  have hsorted : List.Sorted (fun a b => a ≤ b)
      ((0 : ℚ) :: List.replicate 39 10) := by
    rw [List.sorted_cons]
    refine ⟨fun b hb => ?_, ?_⟩
    · rw [List.eq_of_mem_replicate hb]
      norm_num
    · exact List.pairwise_replicate.mpr (Or.inr le_rfl)
  have hsum : ((0 : ℚ) :: List.replicate 39 10).sum = 390 := by
    simp [List.sum_replicate]
    norm_num
  simp only [aggregateVals, List.Sorted.insertionSort_eq hsorted]
  have hlow : (((0 : ℚ) :: List.replicate 39 10).getD
      (max 1 ((0 : ℚ) :: List.replicate 39 10).length * 25 / 1000) 0)
      = 10 := by
    norm_num [List.length_replicate]
  have hlen : (max 1 ((0 : ℚ) :: List.replicate 39 10).length) = 40 := by
    norm_num [List.length_replicate]
  rw [hlow, hlen, hsum]
  norm_num

/-- **C4 (amended)**: the aggregated bounds always satisfy `lower ≤ upper`,
and `lower ≤ mean ≤ upper` holds whenever the ensemble has at most 39
members (then the lower index is 0 and the upper index is the last); for 40
or more members either inequality with the mean can fail. -/
theorem c4_quantile_bounds_amended (vals : List ℚ) (hne : vals ≠ []) :
    (aggregateVals vals).2.1 ≤ (aggregateVals vals).2.2
    ∧ (vals.length ≤ 39 →
        (aggregateVals vals).2.1 ≤ (aggregateVals vals).1
        ∧ (aggregateVals vals).1 ≤ (aggregateVals vals).2.2) := by
  have hsorted : List.Sorted (fun a b => a ≤ b)
      (vals.insertionSort (fun a b => a ≤ b)) :=
    List.sorted_insertionSort _ _
  have hperm := List.perm_insertionSort (fun a b => a ≤ b) vals
  have hlen : (vals.insertionSort (fun a b => a ≤ b)).length = vals.length :=
    hperm.length_eq
  have hsum : (vals.insertionSort (fun a b => a ≤ b)).sum = vals.sum :=
    hperm.sum_eq
  have hn : 0 < vals.length := List.length_pos.mpr hne
  have hmax : max 1 vals.length = vals.length := max_eq_right hn
  simp only [aggregateVals, hmax]
  have hi2 : vals.length * 975 / 1000 < vals.length := by
    rw [Nat.div_lt_iff_lt_mul (by norm_num)]
    omega
  constructor
  · exact sorted_getD_mono _ hsorted _ _
      (Nat.div_le_div_right (Nat.mul_le_mul_left _ (by norm_num)))
      (hlen.symm ▸ hi2)
  · intro h39
    have hi1 : vals.length * 25 / 1000 = 0 :=
      Nat.div_eq_of_lt (by omega)
    have hi2e : vals.length * 975 / 1000 = vals.length - 1 := by
      refine le_antisymm (by omega) ?_
      rw [Nat.le_div_iff_mul_le (by norm_num)]
      omega
    rw [hi1, hi2e]
    have hmean_ge : (vals.insertionSort (fun a b => a ≤ b)).getD 0 0
        ≤ (vals.insertionSort (fun a b => a ≤ b)).sum
          / (vals.length : ℚ) := by
      rw [le_div_iff₀ (by exact_mod_cast hn)]
      rw [← sum_eq_range_getD, sum_range_map, hlen]
      calc (vals.insertionSort (fun a b => a ≤ b)).getD 0 0 *
            (vals.length : ℚ)
          = ∑ _i ∈ Finset.range vals.length,
            (vals.insertionSort (fun a b => a ≤ b)).getD 0 0 := by
            rw [Finset.sum_const, Finset.card_range, nsmul_eq_mul, mul_comm]
        _ ≤ ∑ i ∈ Finset.range vals.length,
            (vals.insertionSort (fun a b => a ≤ b)).getD i 0 := by
            refine Finset.sum_le_sum fun i hi => ?_
            exact sorted_getD_mono _ hsorted 0 i (Nat.zero_le i)
              (hlen.symm ▸ Finset.mem_range.mp hi)
    have hmean_le : (vals.insertionSort (fun a b => a ≤ b)).sum
          / (vals.length : ℚ)
        ≤ (vals.insertionSort (fun a b => a ≤ b)).getD (vals.length - 1)
          0 := by
      rw [div_le_iff₀ (by exact_mod_cast hn)]
      rw [← sum_eq_range_getD, sum_range_map, hlen]
      calc ∑ i ∈ Finset.range vals.length,
            (vals.insertionSort (fun a b => a ≤ b)).getD i 0
          ≤ ∑ _i ∈ Finset.range vals.length,
            (vals.insertionSort (fun a b => a ≤ b)).getD
              (vals.length - 1) 0 := by
            refine Finset.sum_le_sum fun i hi => ?_
            have hi3 := Finset.mem_range.mp hi
            exact sorted_getD_mono _ hsorted i (vals.length - 1)
              (by omega) (by rw [hlen]; omega)
        _ = (vals.insertionSort (fun a b => a ≤ b)).getD (vals.length - 1)
              0 * (vals.length : ℚ) := by
            rw [Finset.sum_const, Finset.card_range, nsmul_eq_mul, mul_comm]
    exact ⟨hmean_ge, hmean_le⟩

/-- Witness for the amended C4 at the three-member ensemble `[1, 2, 3]`. -/
theorem c4_quantile_bounds_amended_witness :
    ([1, 2, 3] : List ℚ) ≠ []
    ∧ (aggregateVals [(1 : ℚ), 2, 3]).2.1 ≤ (aggregateVals [(1 : ℚ), 2, 3]).2.2
    ∧ (aggregateVals [(1 : ℚ), 2, 3]).2.1 ≤ (aggregateVals [(1 : ℚ), 2, 3]).1
    ∧ (aggregateVals [(1 : ℚ), 2, 3]).1 ≤ (aggregateVals [(1 : ℚ), 2, 3]).2.2
    := by
  have h := c4_quantile_bounds_amended [(1 : ℚ), 2, 3] (by simp)
  exact ⟨by simp, h.1, (h.2 (by norm_num)).1, (h.2 (by norm_num)).2⟩

/-! ### Claim C9: metrics evaluator -/

theorem metrics_fold_countries (a p : String → ℚ)
    (lo up : Option (String → ℚ)) (cs : List String) (acc : MetricsAcc) :
    cs.foldl (fun a2 country =>
      metricsStep a2 (a country) (p country)
        ((lo.map (fun f => f country)).getD 0)
        ((up.map (fun f => f country)).getD 0)) acc
    = ⟨acc.tse + ptsSSE (ptsOf a p lo up cs),
       acc.tae + ptsSAE (ptsOf a p lo up cs),
       acc.tp + (ptsOf a p lo up cs).length,
       acc.cp + ptsCov (ptsOf a p lo up cs)⟩ := by
  induction cs generalizing acc with
  | nil => simp [ptsOf, ptsSSE, ptsSAE, ptsCov]
  | cons c t ih =>
      rw [List.foldl_cons, ih]
      by_cases h : 0 < a c
      · have hfil : ptsOf a p lo up (c :: t)
            = (a c, p c, (lo.map (fun f => f c)).getD 0,
                (up.map (fun f => f c)).getD 0) :: ptsOf a p lo up t := by
          simp [ptsOf, List.filter_cons, h]
        rw [hfil]
        simp only [metricsStep, if_pos h, ptsSSE, ptsSAE, ptsCov,
          List.map_cons, List.sum_cons, List.filter_cons, List.length_cons,
          MetricsAcc.mk.injEq]
        refine ⟨by ring, by ring, by omega, ?_⟩
        by_cases hcov : (lo.map (fun f => f c)).getD 0 ≤ a c
            ∧ a c ≤ (up.map (fun f => f c)).getD 0
        · simp [hcov]
          omega
        · simp [hcov]
      · have hfil : ptsOf a p lo up (c :: t) = ptsOf a p lo up t := by
          simp [ptsOf, List.filter_cons, h]
        rw [hfil]
        simp only [metricsStep, if_neg h]

theorem metrics_fold_preds (cs : List String) (preds : List PredPoint)
    (acc : MetricsAcc) :
    preds.foldl (metricsAccum cs) acc
    = ⟨acc.tse + ptsSSE (specCountedPoints preds cs),
       acc.tae + ptsSAE (specCountedPoints preds cs),
       acc.tp + (specCountedPoints preds cs).length,
       acc.cp + ptsCov (specCountedPoints preds cs)⟩ := by
  induction preds generalizing acc with
  | nil => simp [specCountedPoints, ptsSSE, ptsSAE, ptsCov]
  | cons pred rest ih =>
      rw [List.foldl_cons, ih]
      have hsplit : specCountedPoints (pred :: rest) cs
          = (match pred.actualData, pred.predicted with
             | some a, some p => ptsOf a p pred.lower pred.upper cs
             | _, _ => []) ++ specCountedPoints rest cs := rfl
      rw [hsplit]
      cases hpa : pred.actualData with
      | none =>
          simp only [metricsAccum, hpa, List.nil_append, ptsSSE, ptsSAE,
            ptsCov]
      | some a =>
          cases hpp : pred.predicted with
          | none =>
              simp only [metricsAccum, hpa, hpp, List.nil_append, ptsSSE,
                ptsSAE, ptsCov]
          | some p =>
              simp only [metricsAccum, hpa, hpp]
              rw [metrics_fold_countries a p pred.lower pred.upper cs acc]
              simp only [ptsSSE, ptsSAE, ptsCov, List.map_append,
                List.sum_append, List.filter_append, List.length_append,
                MetricsAcc.mk.injEq]
              refine ⟨by ring, by ring, by omega, by omega⟩

/-- **C9**: `calculateMetrics` counts exactly the (point, country) pairs with
both a predicted and an actual object and `actual > 0`; over those `n` points
it returns `rmse = sqrt(ΣSE/n)`, `mae = ΣAE/n`,
`coverage = 100·covered/n`, and for `n = 0` (in particular an empty
prediction list) it returns exactly `{rmse: 0, mae: 0, coverage: 0,
totalPoints: 0}` — the `n = 0` branch returns before any division. -/
theorem c9_metrics_evaluator (sqrtF : ℚ → ℚ) (preds : List PredPoint)
    (cs : List String) :
    (calculateMetrics sqrtF preds cs).totalPoints
      = (specCountedPoints preds cs).length
    ∧ ((specCountedPoints preds cs).length = 0 →
        calculateMetrics sqrtF preds cs = ⟨0, 0, 0, 0⟩)
    ∧ (0 < (specCountedPoints preds cs).length →
        calculateMetrics sqrtF preds cs
        = ⟨sqrtF (ptsSSE (specCountedPoints preds cs)
              / ((specCountedPoints preds cs).length : ℚ)),
            ptsSAE (specCountedPoints preds cs)
              / ((specCountedPoints preds cs).length : ℚ),
            (ptsCov (specCountedPoints preds cs) : ℚ)
              / ((specCountedPoints preds cs).length : ℚ) * 100,
            (specCountedPoints preds cs).length⟩)
    ∧ calculateMetrics sqrtF [] cs = ⟨0, 0, 0, 0⟩ := by
  have hfold := metrics_fold_preds cs preds ⟨0, 0, 0, 0⟩
  have hcalc : calculateMetrics sqrtF preds cs
      = if (specCountedPoints preds cs).length = 0 then ⟨0, 0, 0, 0⟩
        else ⟨sqrtF (ptsSSE (specCountedPoints preds cs)
            / ((specCountedPoints preds cs).length : ℚ)),
          ptsSAE (specCountedPoints preds cs)
            / ((specCountedPoints preds cs).length : ℚ),
          (ptsCov (specCountedPoints preds cs) : ℚ)
            / ((specCountedPoints preds cs).length : ℚ) * 100,
          (specCountedPoints preds cs).length⟩ := by
    unfold calculateMetrics
    rw [hfold]
    simp only [zero_add]
  refine ⟨?_, ?_, ?_, rfl⟩
  · rw [hcalc]
    by_cases h : (specCountedPoints preds cs).length = 0
    · rw [if_pos h]
      exact h.symm
    · rw [if_neg h]
  · intro h
    rw [hcalc, if_pos h]
  · intro h
    rw [hcalc, if_neg (Nat.pos_iff_ne_zero.mp h)]

/-- Witness for C9: the empty prediction list over two locations yields the
all-zero metrics, and a singleton prediction with `actual = 5 ∈ [lower,
upper]` and `predicted = 6` is counted once. -/
theorem c9_metrics_evaluator_witness :
    calculateMetrics (fun q => q) [] ["A", "B"] = ⟨0, 0, 0, 0⟩
    ∧ (calculateMetrics (fun q => q)
        [⟨2010, "prediction", some (fun _ => 6), some (fun _ => 5),
          some (fun _ => 4), some (fun _ => 7)⟩] ["A"]).totalPoints
      = (specCountedPoints
        [⟨2010, "prediction", some (fun _ => 6), some (fun _ => 5),
          some (fun _ => 4), some (fun _ => 7)⟩] ["A"]).length := by
  constructor
  · exact (c9_metrics_evaluator (fun q => q) [] ["A", "B"]).2.2.2
  · exact (c9_metrics_evaluator (fun q => q)
      [⟨2010, "prediction", some (fun _ => 6), some (fun _ => 5),
        some (fun _ => 4), some (fun _ => 7)⟩] ["A"]).1

/-! ### Claim C6: fatal conditions and prior results -/

/-- **C6 counterexample**: a run hitting the missing-initial-population fatal
condition surfaces the error, but the prior successful run's results are NOT
left untouched: `generatePredictions` clears predictions, transition
matrices, averaged matrix and metrics at run start (before any fatal check)
and the catch block does not restore them. -/
theorem c6_fatal_counterexample :
    (generatePredictionsRun (fun _ => 1) (fun _ => 1) (fun q => q)
      (fun _ _ _ => none) (fun _ _ => emptyPop)
      (fun m ip cs st es sd y => runWorker (fun q => q) m ip cs st es sd y)
      (fun _ _ => none) (fun _ _ => 0) c6Env c6Prior).2
      = some "No initial population data available"
    ∧ (generatePredictionsRun (fun _ => 1) (fun _ => 1) (fun q => q)
      (fun _ _ _ => none) (fun _ _ => emptyPop)
      (fun m ip cs st es sd y => runWorker (fun q => q) m ip cs st es sd y)
      (fun _ _ => none) (fun _ _ => 0) c6Env c6Prior).1.predictions = []
    ∧ c6Prior.predictions ≠ []
    ∧ (generatePredictionsRun (fun _ => 1) (fun _ => 1) (fun q => q)
      (fun _ _ _ => none) (fun _ _ => emptyPop)
      (fun m ip cs st es sd y => runWorker (fun q => q) m ip cs st es sd y)
      (fun _ _ => none) (fun _ _ => 0) c6Env c6Prior).1.validationMetrics
      = none
    ∧ c6Prior.validationMetrics ≠ none := by
  refine ⟨rfl, rfl, ?_, rfl, ?_⟩
  · simp [c6Prior]
  · simp [c6Prior]

/-- **C6 (amended)**: every fatal condition aborts the run with the error
surfaced to the caller and produces no new results: in the returned state
`resultsReady` is false and `predictions`, `averageTransitionMatrix` and
`validationMetrics` hold the values cleared at run start (`[]`/`null`), not
the prior run's values (which were wiped by the reset). -/
theorem c6_fatal_aborts_with_cleared_results {δ : Type}
    (logF expF sqrtF : ℚ → ℚ)
    (getFlowsF : δ → List String → (String → Option Flow))
    (getPopF : δ → List String → (String → ℚ))
    (sampler : List (List ℚ) → (String → ℚ) → List String → ℕ → ℕ →
      List ℕ → ℤ → List WorkerOut)
    (distances : String → String → Option ℚ) (conn : String → String → ℚ)
    (env : RunEnv δ) (st st2 : AppState) (err : String)
    (h : generatePredictionsRun logF expF sqrtF getFlowsF getPopF sampler
      distances conn env st = (st2, some err)) :
    st2.resultsReady = false ∧ st2.predictions = []
    ∧ st2.averageTransitionMatrix = none
    ∧ st2.validationMetrics = none := by
  simp only [generatePredictionsRun] at h
  repeat' split at h
  all_goals injection h with h1 h2
  all_goals
    first
    | exact Option.noConfusion h2
    | (subst h1; exact ⟨rfl, rfl, rfl, rfl⟩)

/-- Witness for the amended C6 at the concrete fatal run of the
counterexample environment. -/
theorem c6_fatal_aborts_with_cleared_results_witness :
    ((generatePredictionsRun (fun _ => 1) (fun _ => 1) (fun q => q)
      (fun _ _ _ => none) (fun _ _ => emptyPop)
      (fun m ip cs st es sd y => runWorker (fun q => q) m ip cs st es sd y)
      (fun _ _ => none) (fun _ _ => 0) c6Env c6Prior).1.resultsReady
        = false)
    ∧ (generatePredictionsRun (fun _ => 1) (fun _ => 1) (fun q => q)
      (fun _ _ _ => none) (fun _ _ => emptyPop)
      (fun m ip cs st es sd y => runWorker (fun q => q) m ip cs st es sd y)
      (fun _ _ => none) (fun _ _ => 0) c6Env c6Prior).1.predictions = []
    ∧ (generatePredictionsRun (fun _ => 1) (fun _ => 1) (fun q => q)
      (fun _ _ _ => none) (fun _ _ => emptyPop)
      (fun m ip cs st es sd y => runWorker (fun q => q) m ip cs st es sd y)
      (fun _ _ => none) (fun _ _ => 0)
        c6Env c6Prior).1.averageTransitionMatrix = none
    ∧ (generatePredictionsRun (fun _ => 1) (fun _ => 1) (fun q => q)
      (fun _ _ _ => none) (fun _ _ => emptyPop)
      (fun m ip cs st es sd y => runWorker (fun q => q) m ip cs st es sd y)
      (fun _ _ => none) (fun _ _ => 0) c6Env c6Prior).1.validationMetrics
      = none :=
  c6_fatal_aborts_with_cleared_results (fun _ => 1) (fun _ => 1) (fun q => q)
    (fun _ _ _ => none) (fun _ _ => emptyPop)
    (fun m ip cs st es sd y => runWorker (fun q => q) m ip cs st es sd y)
    (fun _ _ => none) (fun _ _ => 0) c6Env c6Prior
    (generatePredictionsRun (fun _ => 1) (fun _ => 1) (fun q => q)
      (fun _ _ _ => none) (fun _ _ => emptyPop)
      (fun m ip cs st es sd y => runWorker (fun q => q) m ip cs st es sd y)
      (fun _ _ => none) (fun _ _ => 0) c6Env c6Prior).1
    "No initial population data available" rfl

end Migration
